import Mathlib

/-!
Moodify — verification of the recommendation pipeline.

Shallow embedding of the core of the Moodify repository:

* `song_service.py` — the Catalog Client (`SaavnService`): `search_songs_by_mood`,
  `get_song_details`, `_format_songs`.
* `music_recommender.py` — the Recommendation Resolver (`MusicRecommender`):
  `recommend_songs`, `_generate_song_recommendations_with_gemini`,
  `_get_direct_playable_songs`.
* `mood_analyzer.py` — `MoodAnalyzer.analyze_mood`.
* `database.py` — `Database.get_user_history`.

The external world (the JioSaavn HTTP API and the Gemini oracle) is modelled as
explicit inputs: a `World` holding the search and detail endpoints, and a
`GeminiOutcome` describing the observable outcome of the oracle call
(transport error, malformed JSON payload, or a parsed candidate list).
Python dictionaries are modelled as structures whose optional string fields
default to `""` exactly where the code uses `dict.get(k, "")` / truthiness,
and as `Option String` where the code distinguishes a missing key from an
empty value (`dict.get(k, fallback)`).
-/

/-- A `{quality, url}` entry, as found in the provider's `image` and
`downloadUrl` arrays.  Missing keys are modelled as `""` because the code
only ever reads them with `.get(k, "")` or truthiness tests. -/
structure QualityUrl where
  quality : String
  url : String
deriving DecidableEq, Repr

/-- A raw provider result from `GET /search/songs`, restricted to the fields
`_format_songs` reads.  `name` is an `Option` because the code uses
`song.get("name", "Unknown Title")`, which distinguishes a missing key from
an empty string.  `artistsPrimary` is the list of primary artist names
(`song["artists"]["primary"][*]["name"]`); a missing `artists`/`primary` key
is the empty list, which is how the code treats it. -/
structure RawSong where
  id : String
  name : Option String
  artistsPrimary : List String
  image : List QualityUrl
  pageUrl : String
  downloadUrl : List QualityUrl
  duration : Nat
deriving DecidableEq, Repr

/-- A normalized song record as produced by `_format_songs` and then mutated
in place by `search_songs_by_mood` (`quality`, `youtube_search`,
`saavn_search`) and by the resolver (`mood_match`).  Fields the code sets
later start out `""` / `none`. -/
structure Song where
  id : String
  title : String
  artist : String
  image : String
  url : String
  stream_url : String
  quality : String
  youtube_search : String
  saavn_search : String
  mood_match : Option String
  duration : Nat
deriving DecidableEq, Repr

/-- The external catalog provider (JioSaavn), as seen through the two HTTP
endpoints the Catalog Client calls.  `searchApi q n` models
`GET /search/songs?query=q&limit=n`: `none` is a transport failure or a
non-success envelope (both make the client add nothing for that query), and
`some rs` is a successful envelope with result list `rs`.  `detailsApi id`
models the `downloadUrl` list obtained through `get_song_details id`; a
failed or empty detail fetch is `[]` (the code's `{}` / missing
`downloadUrl` cases). -/
structure World where
  searchApi : String → Nat → Option (List RawSong)
  detailsApi : String → List QualityUrl

/-- UTF-8 bytes of a Unicode code point, used to model
`urllib.parse.quote`. -/
def utf8Bytes (n : Nat) : List Nat :=
  if n < 0x80 then [n]
  else if n < 0x800 then [0xC0 + n / 0x40, 0x80 + n % 0x40]
  else if n < 0x10000 then
    [0xE0 + n / 0x1000, 0x80 + (n / 0x40) % 0x40, 0x80 + n % 0x40]
  else
    [0xF0 + n / 0x40000, 0x80 + (n / 0x1000) % 0x40,
     0x80 + (n / 0x40) % 0x40, 0x80 + n % 0x40]

/-- Upper-case hexadecimal digit. -/
def hexDigit (n : Nat) : Char :=
  if n < 10 then Char.ofNat (48 + n) else Char.ofNat (55 + n)

/-- Percent-encoding of one byte. -/
def percentByte (b : Nat) : String :=
  "%" ++ String.singleton (hexDigit (b / 16)) ++ String.singleton (hexDigit (b % 16))

/-- Model of `urllib.parse.quote` for one character: ASCII alphanumerics and
`_ . - ~ /` are kept, everything else is percent-encoded byte-wise. -/
def quoteChar (c : Char) : String :=
  if c.isAlphanum ∨ c = '_' ∨ c = '.' ∨ c = '-' ∨ c = '~' ∨ c = '/' then
    String.singleton c
  else
    String.join ((utf8Bytes c.toNat).map percentByte)

/-- Model of `urllib.parse.quote` (with its default safe set including the slash). -/
def urlQuote (s : String) : String :=
  String.join (s.data.map quoteChar)

/-- The image / stream-URL selection of `_format_songs`: scan for the first
entry whose `quality` equals the preferred tier and take its `url`; if none
was found (or its `url` was empty) fall back to the first entry's `url`;
`""` when the list is empty. -/
def pickPreferred (pref : String) : List QualityUrl → String
  | [] => ""
  | first :: rest =>
    let fromPref :=
      match (first :: rest).find? (fun o => o.quality == pref) with
      | some o => o.url
      | none => ""
    if fromPref ≠ "" then fromPref else first.url

/-- Embedding of one loop iteration of `SaavnService._format_songs`: the
normalization of a single raw result. -/
def formatOne (r : RawSong) : Song :=
  { id := r.id
    title := r.name.getD "Unknown Title"
    artist :=
      if r.artistsPrimary.isEmpty then "Unknown Artist"
      else String.intercalate ", " r.artistsPrimary
    image := pickPreferred "500x500" r.image
    url := r.pageUrl
    stream_url := pickPreferred "320kbps" r.downloadUrl
    quality := ""
    youtube_search := ""
    saavn_search := ""
    mood_match := none
    duration := r.duration }

/-- Embedding of `SaavnService._format_songs`: the loop appends one formatted record per
raw result. -/
def format_songs : List RawSong → List Song
  | [] => []
  | r :: rest => formatOne r :: format_songs rest

/-- Python `str.lower()`, character-wise. -/
def pyLower (s : String) : String :=
  ⟨s.data.map Char.toLower⟩

/-- Python `str.strip()`: drop leading and trailing whitespace. -/
def pyStrip (s : String) : String :=
  ⟨((s.data.dropWhile Char.isWhitespace).reverse.dropWhile Char.isWhitespace).reverse⟩

/-- The case-insensitive `"{title} {artist}"` deduplication key used
throughout `song_service.py` and `music_recommender.py`. -/
def songKey (s : Song) : String :=
  pyLower (s.title ++ " " ++ s.artist)

/-- First entry of a `downloadUrl` list with a truthy `quality` and a truthy
`url` — the selection loop `for url_obj in details["downloadUrl"]: if
url_obj.get("quality") and url_obj.get("url"): ...; break`. -/
def firstUsable : List QualityUrl → Option QualityUrl
  | [] => none
  | o :: rest => if o.quality ≠ "" ∧ o.url ≠ "" then some o else firstUsable rest

/-- The detail-fetch enrichment in `search_songs_by_mood`: when a formatted
song has no stream URL but has an id, fetch its details and install the
first usable download variant (`stream_url` and `quality`). -/
def maybeResolveStream (details : String → List QualityUrl) (s : Song) : Song :=
  if s.stream_url = "" ∧ s.id ≠ "" then
    match firstUsable (details s.id) with
    | some o => { s with stream_url := o.url, quality := o.quality }
    | none => s
  else s

/-- The YouTube / JioSaavn fallback search links installed on every song the
client keeps. -/
def addSearchLinks (s : Song) : Song :=
  { s with
    youtube_search :=
      "https://www.youtube.com/results?search_query=" ++
        urlQuote (s.title ++ " " ++ s.artist)
    saavn_search :=
      "https://www.jiosaavn.com/search/" ++ urlQuote (s.title ++ " " ++ s.artist) }

/-- The `mood_queries` table of `SaavnService.search_songs_by_mood`. -/
def moodQueriesService (q : String) : Option (List String) :=
  if q = "Happy" then
    some ["upbeat happy songs", "feel good indian songs", "cheerful bollywood hits"]
  else if q = "Sad" then
    some ["sad emotional songs", "heartbreak bollywood", "melancholy hindi songs"]
  else if q = "Angry" then
    some ["powerful indian songs", "intense hindi tracks", "energetic bollywood"]
  else if q = "Anxious" then
    some ["calming indian songs", "peaceful hindi music", "soothing bollywood"]
  else if q = "Relaxed" then
    some ["chill relaxing songs", "peaceful indian classical", "soft bollywood melodies"]
  else if q = "Neutral" then
    some ["popular hindi songs", "trending indian music", "top bollywood hits"]
  else none

/-- The list of search queries `search_songs_by_mood` will cascade through:
the first expanded query for a mood keyword (or the raw query itself),
followed by the remaining expansions when the input was a mood keyword. -/
def allQueries (q : String) : List String :=
  match moodQueriesService q with
  | some l => [l.headD q] ++ (if 1 < l.length then l.drop 1 else [])
  | none => [q]

/-- Inner loop of `search_songs_by_mood` over one query's formatted results:
resolve a missing stream URL through the detail fetch, keep only songs with a
stream URL (adding the fallback search links), break once `limit` songs are
collected. -/
def addSongsFromQuery (w : World) (limit : Nat) :
    List Song → List Song → List Song
  | [], acc => acc
  | song :: rest, acc =>
    let song := maybeResolveStream w.detailsApi song
    if song.stream_url ≠ "" then
      let acc := acc ++ [addSearchLinks song]
      if limit ≤ acc.length then acc
      else addSongsFromQuery w limit rest acc
    else addSongsFromQuery w limit rest acc

/-- Outer loop of `search_songs_by_mood` over the cascade of queries.
Returns the collected songs together with the list of search requests
actually issued to the provider (each `GET /search/songs` call, in order). -/
def searchLoopR (w : World) (limit : Nat) :
    List String → List Song → List Song × List String
  | [], acc => (acc, [])
  | q :: rest, acc =>
    if limit ≤ acc.length then (acc, [])
    else
      match w.searchApi q (limit * 2) with
      | none =>
        let p := searchLoopR w limit rest acc
        (p.1, q :: p.2)
      | some raw =>
        let p := searchLoopR w limit rest (addSongsFromQuery w limit (format_songs raw) acc)
        (p.1, q :: p.2)

/-- The generic-fallback loop of `search_songs_by_mood` (the
`"popular bollywood songs"` block): same enrichment, but each song is first
checked against the songs already collected by its case-insensitive
title+artist key. -/
def genericLoop (w : World) (limit : Nat) : List Song → List Song → List Song
  | [], acc => acc
  | song :: rest, acc =>
    if limit ≤ acc.length then acc
    else if acc.any (fun s => songKey s == songKey song) then
      genericLoop w limit rest acc
    else
      let song := maybeResolveStream w.detailsApi song
      if song.stream_url ≠ "" then genericLoop w limit rest (acc ++ [addSearchLinks song])
      else genericLoop w limit rest acc

/-- Embedding of `SaavnService.search_songs_by_mood`, returning both the result list and
the list of search requests issued. -/
def search_songs_by_moodR (w : World) (query : String) (limit : Nat) :
    List Song × List String :=
  let p := searchLoopR w limit (allQueries query) []
  if p.1.length < limit then
    match w.searchApi "popular bollywood songs" (limit * 2) with
    | none => (p.1.take limit, p.2 ++ ["popular bollywood songs"])
    | some raw =>
      ((genericLoop w limit (format_songs raw) p.1).take limit,
        p.2 ++ ["popular bollywood songs"])
  else (p.1.take limit, p.2)

/-- Embedding of `SaavnService.search_songs_by_mood`: the songs returned to the caller. -/
def search_songs_by_mood (w : World) (query : String) (limit : Nat) : List Song :=
  (search_songs_by_moodR w query limit).1

/-- The search requests one call to `search_songs_by_mood` issues to the
provider, in order. -/
def searchRequests (w : World) (query : String) (limit : Nat) : List String :=
  (search_songs_by_moodR w query limit).2

/-- A candidate song parsed from the Gemini JSON payload (the fields the
resolver reads: `title`, `artist`, and the optional `mood_match`). -/
structure Candidate where
  title : String
  artist : String
  mood_match : Option String
deriving DecidableEq, Repr

/-- Observable outcome of the Gemini call inside
`_generate_song_recommendations_with_gemini`: the API call raised (`err`),
the response text failed JSON decoding (`badJson`), or it parsed to a list
of candidates (`ok`). -/
inductive GeminiOutcome where
  | err : GeminiOutcome
  | badJson : GeminiOutcome
  | ok : List Candidate → GeminiOutcome
deriving DecidableEq, Repr

/-- The `mood_specific_queries` table of
`MusicRecommender._get_direct_playable_songs`, including its
`["popular bollywood songs"]` default. -/
def moodSpecificQueries (mood : String) : List String :=
  if mood = "Happy" then
    ["popular happy songs indian", "upbeat bollywood hits", "cheerful hindi songs",
     "feel good tamil songs"]
  else if mood = "Sad" then
    ["emotional bollywood songs", "sad hindi hits", "melancholy indian music",
     "heartbreak songs tamil"]
  else if mood = "Angry" then
    ["powerful bollywood tracks", "intense hindi songs", "aggressive indian music",
     "rap hindi songs"]
  else if mood = "Anxious" then
    ["calming indian songs", "soothing bollywood music", "peaceful hindi tracks",
     "meditation music india"]
  else if mood = "Relaxed" then
    ["chill bollywood songs", "relaxing indian music", "peaceful hindi songs",
     "soft tamil melodies"]
  else if mood = "Neutral" then
    ["trending bollywood songs", "top hindi hits", "popular indian songs 2024",
     "viral indian music"]
  else ["popular bollywood songs"]

/-- The `mood_queries` table of the broader-search block inside
`_generate_song_recommendations_with_gemini`, including its
`["popular indian songs"]` default. -/
def geminiMoodQueries (mood : String) : List String :=
  if mood = "Happy" then
    ["popular happy songs indian", "upbeat bollywood songs", "cheerful hindi songs"]
  else if mood = "Sad" then
    ["emotional bollywood songs", "sad hindi songs", "melancholy indian music"]
  else if mood = "Angry" then
    ["intense indian songs", "powerful bollywood tracks", "aggressive hindi music"]
  else if mood = "Anxious" then
    ["calming indian songs", "soothing bollywood music", "peaceful hindi tracks"]
  else if mood = "Relaxed" then
    ["chill bollywood songs", "relaxing indian music", "peaceful hindi songs"]
  else if mood = "Neutral" then
    ["popular bollywood hits", "trending indian songs", "classic hindi tracks"]
  else ["popular indian songs"]

/-- The shared inner collection loop: for each search result with a truthy
`stream_url` and a truthy `title`, add it if its case-insensitive
title+artist key is new, and break once `limit` songs have been collected.
This is the body shared by `_get_direct_playable_songs` and the
broader-search block of `_generate_song_recommendations_with_gemini`.
State: collected songs and seen keys. -/
def collectPlayable (limit : Nat) :
    List Song → List Song → List String → List Song × List String
  | [], verified, seen => (verified, seen)
  | song :: rest, verified, seen =>
    if song.stream_url ≠ "" ∧ song.title ≠ "" then
      let key := songKey song
      if key ∈ seen then collectPlayable limit rest verified seen
      else
        let verified := verified ++ [song]
        let seen := key :: seen
        if limit ≤ verified.length then (verified, seen)
        else collectPlayable limit rest verified seen
    else collectPlayable limit rest verified seen

/-- The query cascade shared by `_get_direct_playable_songs` (per-query
search limit 5) and the broader-search block of the Gemini path (per-query
search limit 3): try each query in turn until `limit` songs are
collected. -/
def queryCascade (w : World) (per : Nat) (limit : Nat) :
    List String → List Song → List String → List Song × List String
  | [], verified, seen => (verified, seen)
  | q :: rest, verified, seen =>
    if limit ≤ verified.length then (verified, seen)
    else
      let p := collectPlayable limit (search_songs_by_mood w q per) verified seen
      queryCascade w per limit rest p.1 p.2

/-- Embedding of `MusicRecommender._get_direct_playable_songs`. -/
def get_direct_playable_songs (w : World) (mood : String) (limit : Nat) : List Song :=
  (queryCascade w 5 limit (moodSpecificQueries mood) [] []).1

/-- Stage-1 loop of `_generate_song_recommendations_with_gemini` over the
parsed Gemini candidates: skip candidates whose normalized
`"{title} {artist}"` query has been seen, search the catalog with that query
(limit 2), keep the first result with a truthy `stream_url` and `title`
(carrying over the candidate's `mood_match`), and record the candidate's
normalized query as seen. -/
def candidateLoop (w : World) (limit : Nat) :
    List Candidate → List Song → List String → List Song × List String
  | [], verified, seen => (verified, seen)
  | c :: rest, verified, seen =>
    if limit ≤ verified.length then (verified, seen)
    else
      let normalized := pyLower (c.title ++ " " ++ c.artist)
      if normalized ∈ seen then candidateLoop w limit rest verified seen
      else
        match (search_songs_by_mood w (c.title ++ " " ++ c.artist) 2).find?
            (fun r => r.stream_url != "" && r.title != "") with
        | some r =>
          let r := match c.mood_match with
            | some m => { r with mood_match := some m }
            | none => r
          candidateLoop w limit rest (verified ++ [r]) (normalized :: seen)
        | none => candidateLoop w limit rest verified seen

/-- Embedding of `MusicRecommender._generate_song_recommendations_with_gemini`: on an API
error or a JSON decode failure, fall back to `_get_direct_playable_songs`;
otherwise verify the candidates against the catalog, top up with the
broader mood-query search if short, and cap at `limit`. -/
def generate_with_gemini (w : World) (g : GeminiOutcome) (mood : String)
    (limit : Nat) : List Song :=
  match g with
  | .err => get_direct_playable_songs w mood limit
  | .badJson => get_direct_playable_songs w mood limit
  | .ok candidates =>
    let p := candidateLoop w limit candidates [] []
    let p :=
      if p.1.length < limit then
        queryCascade w 3 limit (geminiMoodQueries mood) p.1 p.2
      else p
    p.1.take limit

/-- The combination loop of `recommend_songs` (the partial-Gemini branch):
append direct-search songs whose key is not among the keys already present,
breaking once `limit` songs are combined. -/
def combineLoop (limit : Nat) :
    List Song → List Song → List String → List Song
  | [], combined, _ => combined
  | song :: rest, combined, existing =>
    let key := songKey song
    if key ∈ existing then combineLoop limit rest combined existing
    else
      let combined := combined ++ [song]
      if limit ≤ combined.length then combined
      else combineLoop limit rest combined (key :: existing)

/-- The fall-through tail of `MusicRecommender.recommend_songs` (reached when
the Gemini client is absent or the Gemini path produced no songs): try the
direct mood-query search, then the last-resort basic mood search filtered to
playable songs. -/
def recommend_fallback (w : World) (mood : String) (limit : Nat) : List Song :=
  let direct := get_direct_playable_songs w mood limit
  if direct ≠ [] then direct
  else (search_songs_by_mood w mood limit).filter (fun s => s.stream_url != "")

/-- Embedding of `MusicRecommender.recommend_songs`.  `g = none` models
`self.gemini_client is None` (the Gemini branch is skipped);
`g = some outcome` models a configured client whose call has the given
observable outcome. -/
def recommend_songs (w : World) (g : Option GeminiOutcome) (mood : String)
    (limit : Nat) : List Song :=
  match g with
  | some outcome =>
    let gs := generate_with_gemini w outcome mood limit
    if gs ≠ [] ∧ limit ≤ gs.length then gs
    else if gs ≠ [] then
      let direct := get_direct_playable_songs w mood (limit - gs.length)
      combineLoop limit direct gs (gs.map songKey)
    else recommend_fallback w mood limit
  | none => recommend_fallback w mood limit

/-- The six mood labels of the closed enumeration. -/
def moodLabels : List String :=
  ["Happy", "Sad", "Angry", "Anxious", "Relaxed", "Neutral"]

/-- Embedding of `MoodAnalyzer.analyze_mood`.  `clientConfigured` models
`self.client is not None`; `oracle` models the outcome of the
`generate_content` call (`ok text` or a raised exception).  The response
text is stripped and returned verbatim; every failure path returns the
default mood `"Neutral"`. -/
def analyze_mood (clientConfigured : Bool) (oracle : Except Unit String) : String :=
  if clientConfigured then
    match oracle with
    | .ok t => pyStrip t
    | .error _ => "Neutral"
  else "Neutral"

/-- A persisted recommendation record (`database.py`), restricted to the
fields `get_user_history` reads.  Timestamps are the ISO strings the file
stores. -/
structure RecRecord where
  user_id : String
  mood : String
  recommendations : List Song
  timestamp : String
deriving DecidableEq, Repr

/-- Insert a record into a list kept in descending timestamp order —
`list.sort(key=..., reverse=True)` on the filtered records. -/
def insertDesc (x : RecRecord) : List RecRecord → List RecRecord
  | [] => [x]
  | y :: ys =>
    if x.timestamp ≤ y.timestamp then y :: insertDesc x ys
    else x :: y :: ys

/-- Sort records newest-first by timestamp. -/
def sortDesc (l : List RecRecord) : List RecRecord :=
  l.foldl (fun acc x => insertDesc x acc) []

/-- Embedding of `Database.get_user_history`: read the recommendations file (any
read/parse error yields `[]`), filter by `user_id`, sort newest-first by
timestamp, and return the first `limit` records. -/
def get_user_history (store : Except Unit (List RecRecord)) (uid : String)
    (limit : Nat) : List RecRecord :=
  match store with
  | .error _ => []
  | .ok recs => (sortDesc (recs.filter (fun r => r.user_id == uid))).take limit

/-- Modelled from the spec: the "highest declared quality tier" selection the
spec describes for the detail-fetch variants — prefer the `"320kbps"` tier,
falling back to the first available variant when the preferred tier is
absent (this is how the spec's own description of `_format_songs` reads, and
what the spec asserts also happens for detail-fetch variants). -/
def specSelectVariant (dl : List QualityUrl) : Option QualityUrl :=
  match dl.find? (fun o => o.quality == "320kbps") with
  | some o => some o
  | none => dl.head?

/-- A placeholder song used only to take heads of concrete nonempty lists in
closed statements. -/
def dummySong : Song :=
  { id := "", title := "", artist := "", image := "", url := "", stream_url := ""
    quality := "", youtube_search := "", saavn_search := "", mood_match := none
    duration := 0 }

/-- A placeholder record used only to take heads of concrete nonempty lists
in closed statements. -/
def dummyRec : RecRecord :=
  { user_id := "", mood := "", recommendations := [], timestamp := "" }

/-! ### Concrete provider behaviours used in closed statements -/

/-- A raw provider result that formats to a playable song: title `"S"`,
artist `"Z"`, and a direct `320kbps` stream URL `"u"`. -/
def rawPlayable : RawSong :=
  { id := "i1", name := some "S", artistsPrimary := ["Z"], image := [],
    pageUrl := "", downloadUrl := [⟨"320kbps", "u"⟩], duration := 0 }

/-- A provider on which the queries for two distinct Gemini candidates
(`"A X"` and `"B Y"`) both return the same playable song. -/
def dupWorld : World :=
  { searchApi := fun q _ => if q = "A X" ∨ q = "B Y" then some [rawPlayable] else some []
    detailsApi := fun _ => [] }

/-- The two distinct Gemini candidates whose catalog searches collide on the
same track. -/
def dupCandidates : List Candidate :=
  [{ title := "A", artist := "X", mood_match := none },
   { title := "B", artist := "Y", mood_match := none }]

/-- A raw provider result with an id but no direct stream URL, so the
client's detail fetch is exercised. -/
def rawNeedsDetails : RawSong :=
  { id := "d1", name := some "T", artistsPrimary := ["A"], image := [],
    pageUrl := "", downloadUrl := [], duration := 0 }

/-- The detail-fetch variants offered for `rawNeedsDetails`: a `96kbps`
variant first, the `320kbps` (highest) tier second. -/
def twoTierVariants : List QualityUrl := [⟨"96kbps", "a"⟩, ⟨"320kbps", "b"⟩]

/-- A provider whose search returns `rawNeedsDetails` for the query `"x"`
and whose detail fetch offers `twoTierVariants`. -/
def detailWorld : World :=
  { searchApi := fun q _ => if q = "x" then some [rawNeedsDetails] else some []
    detailsApi := fun i => if i = "d1" then twoTierVariants else [] }

/-- A raw provider result with neither a stream URL nor an id: the client
can never resolve a stream URL for it. -/
def rawUnplayable : RawSong :=
  { id := "", name := some "T", artistsPrimary := ["A"], image := [],
    pageUrl := "", downloadUrl := [], duration := 0 }

/-- A provider that yields exactly one (unplayable) result for `"x"`. -/
def unplayableWorld : World :=
  { searchApi := fun q _ => if q = "x" then some [rawUnplayable] else some []
    detailsApi := fun _ => [] }

/-- A provider whose every search succeeds with zero results. -/
def emptyWorld : World :=
  { searchApi := fun _ _ => some [], detailsApi := fun _ => [] }

/-- A provider on which every search returns the single playable song
`rawPlayable`. -/
def richWorld : World :=
  { searchApi := fun _ _ => some [rawPlayable], detailsApi := fun _ => [] }

/-- A raw provider result carrying a present-but-empty `name` and a single
empty primary-artist name. -/
def rawEmptyNames : RawSong :=
  { id := "", name := some "", artistsPrimary := [""], image := [],
    pageUrl := "", downloadUrl := [], duration := 0 }

/-- A small concrete recommendations store: two records for user `"u"`
(older first) and one for user `"v"`. -/
def sampleStore : List RecRecord :=
  [{ user_id := "u", mood := "Sad", recommendations := [], timestamp := "2024-01-02T10:00:00" },
   { user_id := "u", mood := "Happy", recommendations := [], timestamp := "2025-03-04T09:30:00" },
   { user_id := "v", mood := "Angry", recommendations := [], timestamp := "2024-06-01T12:00:00" }]

/-! ## General lemmas about the Catalog Client -/

theorem append_ne_empty (a b : String) (h : a.data ≠ []) : a ++ b ≠ "" := by
  intro hc
  apply h
  have h2 : (a ++ b).data = a.data ++ b.data := String.data_append a b
  rw [hc] at h2
  simp at h2
  exact h2.1

theorem addSearchLinks_spec (s : Song) :
    (addSearchLinks s).stream_url = s.stream_url ∧
    (addSearchLinks s).youtube_search ≠ "" ∧
    (addSearchLinks s).saavn_search ≠ "" :=
  ⟨rfl, append_ne_empty _ _ (by decide), append_ne_empty _ _ (by decide)⟩

theorem mem_keep {s t : Song} {acc : List Song} (hstream : t.stream_url ≠ "")
    (h : s ∈ acc ++ [addSearchLinks t]) :
    s ∈ acc ∨ (s.stream_url ≠ "" ∧ s.youtube_search ≠ "" ∧ s.saavn_search ≠ "") := by
  rcases List.mem_append.mp h with h' | h'
  · exact Or.inl h'
  · right
    obtain ⟨h1, h2, h3⟩ := addSearchLinks_spec t
    have hs := List.mem_singleton.mp h'
    subst hs
    exact ⟨h1 ▸ hstream, h2, h3⟩

theorem mem_addSongsFromQuery {w : World} {limit : Nat} {s : Song} :
    ∀ {songs acc : List Song}, s ∈ addSongsFromQuery w limit songs acc →
      s ∈ acc ∨ (s.stream_url ≠ "" ∧ s.youtube_search ≠ "" ∧ s.saavn_search ≠ "") := by
  intro songs
  induction songs with
  | nil => intro acc h; exact Or.inl h
  | cons song rest ih =>
    intro acc h
    simp only [addSongsFromQuery] at h
    split at h
    · rename_i hstream
      split at h
      · exact mem_keep hstream h
      · rcases ih h with h' | h'
        · exact mem_keep hstream h'
        · exact Or.inr h'
    · exact ih h

theorem mem_genericLoop {w : World} {limit : Nat} {s : Song} :
    ∀ {songs acc : List Song}, s ∈ genericLoop w limit songs acc →
      s ∈ acc ∨ (s.stream_url ≠ "" ∧ s.youtube_search ≠ "" ∧ s.saavn_search ≠ "") := by
  intro songs
  induction songs with
  | nil => intro acc h; exact Or.inl h
  | cons song rest ih =>
    intro acc h
    simp only [genericLoop] at h
    split at h
    · exact Or.inl h
    · split at h
      · exact ih h
      · split at h
        · rename_i hstream
          rcases ih h with h' | h'
          · exact mem_keep hstream h'
          · exact Or.inr h'
        · exact ih h

theorem mem_searchLoopR {w : World} {limit : Nat} {s : Song} :
    ∀ {qs : List String} {acc : List Song}, s ∈ (searchLoopR w limit qs acc).1 →
      s ∈ acc ∨ (s.stream_url ≠ "" ∧ s.youtube_search ≠ "" ∧ s.saavn_search ≠ "") := by
  intro qs
  induction qs with
  | nil => intro acc h; exact Or.inl h
  | cons q rest ih =>
    intro acc h
    simp only [searchLoopR] at h
    split at h
    · exact Or.inl h
    · split at h
      · exact ih h
      · rcases ih h with h' | h'
        · exact mem_addSongsFromQuery h'
        · exact Or.inr h'

theorem mem_search_songs_by_mood {w : World} {q : String} {limit : Nat} {s : Song}
    (h : s ∈ search_songs_by_mood w q limit) :
    s.stream_url ≠ "" ∧ s.youtube_search ≠ "" ∧ s.saavn_search ≠ "" := by
  simp only [search_songs_by_mood, search_songs_by_moodR] at h
  split at h
  · split at h
    · have h' := List.mem_of_mem_take h
      rcases mem_searchLoopR h' with h'' | h''
      · cases h''
      · exact h''
    · have h' := List.mem_of_mem_take h
      rcases mem_genericLoop h' with h'' | h''
      · rcases mem_searchLoopR h'' with h3 | h3
        · cases h3
        · exact h3
      · exact h''
  · have h' := List.mem_of_mem_take h
    rcases mem_searchLoopR h' with h'' | h''
    · cases h''
    · exact h''

theorem search_songs_by_mood_exists_take (w : World) (q : String) (limit : Nat) :
    ∃ ys : List Song, search_songs_by_mood w q limit = List.take limit ys := by
  simp only [search_songs_by_mood, search_songs_by_moodR]
  split
  · split
    · exact ⟨_, rfl⟩
    · exact ⟨_, rfl⟩
  · exact ⟨_, rfl⟩

theorem length_search_songs_by_mood (w : World) (q : String) (limit : Nat) :
    (search_songs_by_mood w q limit).length ≤ limit := by
  obtain ⟨ys, hys⟩ := search_songs_by_mood_exists_take w q limit
  rw [hys]
  exact List.length_take_le limit ys

/-! ## Lemmas about the Recommendation Resolver loops -/

theorem mem_collectPlayable {limit : Nat} {s : Song} :
    ∀ {songs verified : List Song} {seen : List String},
      s ∈ (collectPlayable limit songs verified seen).1 →
        s ∈ verified ∨ s.stream_url ≠ "" := by
  intro songs
  induction songs with
  | nil => intro verified seen h; exact Or.inl h
  | cons song rest ih =>
    intro verified seen h
    simp only [collectPlayable] at h
    split at h
    · rename_i hcond
      split at h
      · exact ih h
      · split at h
        · rcases List.mem_append.mp h with h' | h'
          · exact Or.inl h'
          · right
            have hs := List.mem_singleton.mp h'
            subst hs
            exact hcond.1
        · rcases ih h with h' | h'
          · rcases List.mem_append.mp h' with h'' | h''
            · exact Or.inl h''
            · right
              have hs := List.mem_singleton.mp h''
              subst hs
              exact hcond.1
          · exact Or.inr h'
    · exact ih h

theorem length_collectPlayable {limit : Nat} :
    ∀ {songs verified : List Song} {seen : List String},
      verified.length < limit →
      (collectPlayable limit songs verified seen).1.length ≤ limit := by
  intro songs
  induction songs with
  | nil => intro verified seen h; exact Nat.le_of_lt h
  | cons song rest ih =>
    intro verified seen h
    simp only [collectPlayable]
    split
    · split
      · exact ih h
      · split
        · simpa using h
        · rename_i hstop
          exact ih (Nat.lt_of_not_le hstop)
    · exact ih h

theorem mem_queryCascade {w : World} {per limit : Nat} {s : Song} :
    ∀ {qs : List String} {verified : List Song} {seen : List String},
      s ∈ (queryCascade w per limit qs verified seen).1 →
        s ∈ verified ∨ s.stream_url ≠ "" := by
  intro qs
  induction qs with
  | nil => intro verified seen h; exact Or.inl h
  | cons q rest ih =>
    intro verified seen h
    simp only [queryCascade] at h
    split at h
    · exact Or.inl h
    · rcases ih h with h' | h'
      · exact mem_collectPlayable h'
      · exact Or.inr h'

theorem length_queryCascade {w : World} {per limit : Nat} :
    ∀ {qs : List String} {verified : List Song} {seen : List String},
      verified.length ≤ limit →
      (queryCascade w per limit qs verified seen).1.length ≤ limit := by
  intro qs
  induction qs with
  | nil => intro verified seen h; exact h
  | cons q rest ih =>
    intro verified seen h
    simp only [queryCascade]
    split
    · exact h
    · rename_i hlt
      exact ih (length_collectPlayable (Nat.lt_of_not_le hlt))

theorem mem_get_direct_playable_songs {w : World} {mood : String} {limit : Nat}
    {s : Song} (h : s ∈ get_direct_playable_songs w mood limit) :
    s.stream_url ≠ "" := by
  simp only [get_direct_playable_songs] at h
  rcases mem_queryCascade h with h' | h'
  · cases h'
  · exact h'

theorem length_get_direct_playable_songs (w : World) (mood : String) (limit : Nat) :
    (get_direct_playable_songs w mood limit).length ≤ limit := by
  simp only [get_direct_playable_songs]
  exact length_queryCascade (Nat.zero_le limit)

theorem mem_candidateLoop {w : World} {limit : Nat} {s : Song} :
    ∀ {cs : List Candidate} {verified : List Song} {seen : List String},
      s ∈ (candidateLoop w limit cs verified seen).1 →
        s ∈ verified ∨ s.stream_url ≠ "" := by
  intro cs
  induction cs with
  | nil => intro verified seen h; exact Or.inl h
  | cons c rest ih =>
    intro verified seen h
    simp only [candidateLoop] at h
    split at h
    · exact Or.inl h
    · split at h
      · exact ih h
      · split at h
        · rename_i r hfind
          have hp := List.find?_some hfind
          have hr : r.stream_url ≠ "" := by
            have := (Bool.and_eq_true _ _).mp hp
            exact bne_iff_ne.mp this.1
          rcases ih h with h' | h'
          · rcases List.mem_append.mp h' with h'' | h''
            · exact Or.inl h''
            · right
              have hs := List.mem_singleton.mp h''
              subst hs
              cases c.mood_match with
              | none => exact hr
              | some m => exact hr
          · exact Or.inr h'
        · exact ih h

theorem mem_generate_with_gemini {w : World} {g : GeminiOutcome} {mood : String}
    {limit : Nat} {s : Song} (h : s ∈ generate_with_gemini w g mood limit) :
    s.stream_url ≠ "" := by
  cases g with
  | err => exact mem_get_direct_playable_songs h
  | badJson => exact mem_get_direct_playable_songs h
  | ok candidates =>
    simp only [generate_with_gemini] at h
    have h' := List.mem_of_mem_take h
    split at h'
    · rcases mem_queryCascade h' with h'' | h''
      · rcases mem_candidateLoop h'' with h3 | h3
        · cases h3
        · exact h3
      · exact h''
    · rcases mem_candidateLoop h' with h'' | h''
      · cases h''
      · exact h''

theorem length_generate_with_gemini (w : World) (g : GeminiOutcome) (mood : String)
    (limit : Nat) : (generate_with_gemini w g mood limit).length ≤ limit := by
  cases g with
  | err => exact length_get_direct_playable_songs w mood limit
  | badJson => exact length_get_direct_playable_songs w mood limit
  | ok candidates =>
    simp only [generate_with_gemini]
    split
    · exact List.length_take_le _ _
    · exact List.length_take_le _ _

theorem mem_combineLoop {limit : Nat} {s : Song} :
    ∀ {songs combined : List Song} {existing : List String},
      s ∈ combineLoop limit songs combined existing →
        s ∈ combined ∨ s ∈ songs := by
  intro songs
  induction songs with
  | nil => intro combined existing h; exact Or.inl h
  | cons song rest ih =>
    intro combined existing h
    simp only [combineLoop] at h
    split at h
    · rcases ih h with h' | h'
      · exact Or.inl h'
      · exact Or.inr (List.mem_cons_of_mem _ h')
    · split at h
      · rcases List.mem_append.mp h with h' | h'
        · exact Or.inl h'
        · exact Or.inr (List.mem_singleton.mp h' ▸ List.mem_cons_self _ _)
      · rcases ih h with h' | h'
        · rcases List.mem_append.mp h' with h'' | h''
          · exact Or.inl h''
          · exact Or.inr (List.mem_singleton.mp h'' ▸ List.mem_cons_self _ _)
        · exact Or.inr (List.mem_cons_of_mem _ h')

theorem length_combineLoop {limit : Nat} :
    ∀ {songs combined : List Song} {existing : List String},
      combined.length < limit →
      (combineLoop limit songs combined existing).length ≤ limit := by
  intro songs
  induction songs with
  | nil => intro combined existing h; exact Nat.le_of_lt h
  | cons song rest ih =>
    intro combined existing h
    simp only [combineLoop]
    split
    · exact ih h
    · split
      · simpa using h
      · rename_i hstop
        exact ih (Nat.lt_of_not_le hstop)

theorem mem_recommend_fallback {w : World} {mood : String} {limit : Nat} {s : Song}
    (h : s ∈ recommend_fallback w mood limit) : s.stream_url ≠ "" := by
  simp only [recommend_fallback] at h
  split at h
  · exact mem_get_direct_playable_songs h
  · have := (List.mem_filter.mp h).2
    exact bne_iff_ne.mp this

theorem length_recommend_fallback (w : World) (mood : String) (limit : Nat) :
    (recommend_fallback w mood limit).length ≤ limit := by
  simp only [recommend_fallback]
  split
  · exact length_get_direct_playable_songs w mood limit
  · exact Nat.le_trans (List.length_filter_le _ _) (length_search_songs_by_mood w mood limit)

/-- C1 (amended).  For every catalog provider, Gemini outcome, mood and
count, `recommend_songs` returns a list of at most `limit` tracks in which
every element has a non-empty `stream_url`.  (The pairwise-distinct-key part
of the original claim is refuted by `recommend_songs_duplicate_keys_cex`:
the AI stage deduplicates by the Gemini candidate's query string, not by the
returned track's case-insensitive title+artist key, so two candidates can
verify to the same catalog track.) -/
theorem recommend_songs_length_playable (w : World) (g : Option GeminiOutcome)
    (mood : String) (limit : Nat) :
    (recommend_songs w g mood limit).length ≤ limit ∧
    ∀ s ∈ recommend_songs w g mood limit, s.stream_url ≠ "" := by
  cases g with
  | none =>
    exact ⟨length_recommend_fallback w mood limit, fun s hs => mem_recommend_fallback hs⟩
  | some outcome =>
    simp only [recommend_songs]
    split
    · exact ⟨length_generate_with_gemini w outcome mood limit,
        fun s hs => mem_generate_with_gemini hs⟩
    · split
      · rename_i hnot hne
        have hlt : (generate_with_gemini w outcome mood limit).length < limit := by
          rcases Nat.lt_or_ge (generate_with_gemini w outcome mood limit).length limit with h | h
          · exact h
          · exact absurd ⟨hne, h⟩ hnot
        refine ⟨length_combineLoop hlt, fun s hs => ?_⟩
        rcases mem_combineLoop hs with h' | h'
        · exact mem_generate_with_gemini h'
        · exact mem_get_direct_playable_songs h'
      · exact ⟨length_recommend_fallback w mood limit,
          fun s hs => mem_recommend_fallback hs⟩

/-! ## The zero-results catalog (C7) -/

theorem searchLoopR_fst_of_empty {w : World} {limit : Nat}
    (hz : ∀ q n, w.searchApi q n = some []) :
    ∀ (qs : List String) (acc : List Song), (searchLoopR w limit qs acc).1 = acc := by
  intro qs
  induction qs with
  | nil => intro acc; rfl
  | cons q rest ih =>
    intro acc
    simp only [searchLoopR, hz q (limit * 2)]
    split
    · rfl
    · exact ih acc

theorem search_songs_by_mood_of_empty {w : World}
    (hz : ∀ q n, w.searchApi q n = some []) (q : String) (limit : Nat) :
    search_songs_by_mood w q limit = [] := by
  simp only [search_songs_by_mood, search_songs_by_moodR,
    searchLoopR_fst_of_empty hz, hz "popular bollywood songs" (limit * 2)]
  split
  · simp [genericLoop, format_songs]
  · simp

theorem queryCascade_of_empty {w : World} {per limit : Nat}
    (hz : ∀ q n, w.searchApi q n = some []) :
    ∀ (qs : List String) (verified : List Song) (seen : List String),
      queryCascade w per limit qs verified seen = (verified, seen) := by
  intro qs
  induction qs with
  | nil => intro verified seen; rfl
  | cons q rest ih =>
    intro verified seen
    simp only [queryCascade, search_songs_by_mood_of_empty hz]
    split
    · rfl
    · exact ih verified seen

theorem get_direct_playable_songs_of_empty {w : World}
    (hz : ∀ q n, w.searchApi q n = some []) (mood : String) (limit : Nat) :
    get_direct_playable_songs w mood limit = [] := by
  simp only [get_direct_playable_songs, queryCascade_of_empty hz]

theorem candidateLoop_of_empty {w : World} {limit : Nat}
    (hz : ∀ q n, w.searchApi q n = some []) :
    ∀ (cs : List Candidate) (verified : List Song) (seen : List String),
      candidateLoop w limit cs verified seen = (verified, seen) := by
  intro cs
  induction cs with
  | nil => intro verified seen; rfl
  | cons c rest ih =>
    intro verified seen
    simp only [candidateLoop, search_songs_by_mood_of_empty hz]
    split
    · rfl
    · split
      · exact ih verified seen
      · simp only [List.find?_nil]
        exact ih verified seen

theorem generate_with_gemini_of_empty {w : World}
    (hz : ∀ q n, w.searchApi q n = some []) (g : GeminiOutcome) (mood : String)
    (limit : Nat) : generate_with_gemini w g mood limit = [] := by
  cases g with
  | err => exact get_direct_playable_songs_of_empty hz mood limit
  | badJson => exact get_direct_playable_songs_of_empty hz mood limit
  | ok candidates =>
    simp only [generate_with_gemini, candidateLoop_of_empty hz,
      queryCascade_of_empty hz]
    split <;> simp

/-- C7 (confirmed).  If the Catalog Client's provider returns zero
results for every query (in every stage), then `recommend_songs` returns the
empty list — for every Gemini outcome, every mood, and every count — and,
being a total function, does not raise. -/
theorem recommend_songs_empty_catalog {w : World}
    (hz : ∀ q n, w.searchApi q n = some []) (g : Option GeminiOutcome)
    (mood : String) (limit : Nat) :
    recommend_songs w g mood limit = [] := by
  have hfall : recommend_fallback w mood limit = [] := by
    simp only [recommend_fallback, get_direct_playable_songs_of_empty hz,
      search_songs_by_mood_of_empty hz]
    simp
  cases g with
  | none => exact hfall
  | some outcome =>
    simp only [recommend_songs, generate_with_gemini_of_empty hz]
    simp [hfall]

/-- Witness for `recommend_songs_empty_catalog` at a concrete world. -/
theorem recommend_songs_empty_catalog_witness :
    recommend_songs ⟨fun _ _ => some [], fun _ => []⟩ (some .err) "Happy" 3 = [] :=
  recommend_songs_empty_catalog (fun _ _ => rfl) (some .err) "Happy" 3

/-! ## C1: duplicate keys through the AI stage -/

/-- C1 (counterexample).  With a provider on which the searches for the
two distinct Gemini candidates `"A X"` and `"B Y"` both return the same
playable track, `recommend_songs` returns that track twice: the two returned
elements share the case-insensitive title+artist key `"s z"`, refuting the
pairwise-distinct-key part of the claim. -/
theorem recommend_songs_duplicate_keys_cex :
    (recommend_songs dupWorld (some (.ok dupCandidates)) "Happy" 2).map songKey
        = ["s z", "s z"] ∧
    ¬ ((recommend_songs dupWorld (some (.ok dupCandidates)) "Happy" 2).map songKey).Nodup :=
  ⟨by decide, by decide⟩

/-- Witness for `recommend_songs_length_playable` at a concrete provider. -/
theorem recommend_songs_length_playable_witness :
    (recommend_songs richWorld (some .err) "Happy" 1).length ≤ 1 ∧
    ((recommend_songs richWorld (some .err) "Happy" 1).headD dummySong).stream_url ≠ "" :=
  ⟨(recommend_songs_length_playable richWorld (some .err) "Happy" 1).1,
   (recommend_songs_length_playable richWorld (some .err) "Happy" 1).2 _ (by decide)⟩

/-! ## C2: detail-fetch variant selection -/

theorem firstUsable_eq_some :
    ∀ {dl : List QualityUrl} {u : QualityUrl}, firstUsable dl = some u →
      u.quality ≠ "" ∧ u.url ≠ "" ∧
      ∃ pre post, dl = pre ++ u :: post ∧ ∀ v ∈ pre, v.quality = "" ∨ v.url = "" := by
  intro dl
  induction dl with
  | nil => intro u h; cases h
  | cons o rest ih =>
    intro u h
    simp only [firstUsable] at h
    split at h
    · rename_i hcond
      injection h with h'
      subst h'
      exact ⟨hcond.1, hcond.2, [], rest, rfl, by simp⟩
    · rename_i hcond
      obtain ⟨h1, h2, pre, post, heq, hpre⟩ := ih h
      refine ⟨h1, h2, o :: pre, post, by rw [heq]; rfl, ?_⟩
      intro v hv
      rcases List.mem_cons.mp hv with rfl | hv'
      · by_cases hq : v.quality = ""
        · exact Or.inl hq
        · right
          by_contra hu
          exact hcond ⟨hq, hu⟩
      · exact hpre v hv'

/-- C2 (amended).  For a raw result lacking a direct stream URL *and
carrying a nonempty id*, the detail fetch is consulted and the **first**
variant with both a declared quality and a URL is installed as the stream
URL (not the variant of the highest quality tier); when no variant is
usable, the song is left unchanged.  (The original "highest declared quality
tier" selection is refuted by `detail_variant_not_highest_cex`.) -/
theorem maybeResolveStream_first_usable (d : String → List QualityUrl) (s : Song)
    (h1 : s.stream_url = "") (h2 : s.id ≠ "") :
    (∀ u, firstUsable (d s.id) = some u →
       (maybeResolveStream d s).stream_url = u.url ∧
       (maybeResolveStream d s).quality = u.quality ∧
       u.quality ≠ "" ∧ u.url ≠ "" ∧
       ∃ pre post, d s.id = pre ++ u :: post ∧
         ∀ v ∈ pre, v.quality = "" ∨ v.url = "") ∧
    (firstUsable (d s.id) = none → maybeResolveStream d s = s) := by
  constructor
  · intro u hu
    obtain ⟨hq, hurl, pre, post, heq, hpre⟩ := firstUsable_eq_some hu
    refine ⟨?_, ?_, hq, hurl, pre, post, heq, hpre⟩ <;>
      simp [maybeResolveStream, h1, h2, hu]
  · intro hn
    simp [maybeResolveStream, h1, h2, hn]

/-- C2 (counterexample).  With detail-fetch variants offering `96kbps`
(first) and `320kbps` (second and highest), the client installs the
`96kbps` URL `"a"`, while the spec's highest-tier selection would pick the
`320kbps` URL `"b"`. -/
theorem detail_variant_not_highest_cex :
    (search_songs_by_mood detailWorld "x" 1).map Song.stream_url = ["a"] ∧
    specSelectVariant twoTierVariants = some ⟨"320kbps", "b"⟩ ∧
    ("a" : String) ≠ "b" :=
  ⟨by decide, by decide, by decide⟩

/-- Witness for `maybeResolveStream_first_usable` at a concrete song and
detail endpoint. -/
theorem maybeResolveStream_first_usable_witness :
    (maybeResolveStream detailWorld.detailsApi { dummySong with id := "d1" }).stream_url
      = "a" :=
  ((maybeResolveStream_first_usable detailWorld.detailsApi
      { dummySong with id := "d1" } rfl (by decide)).1
    ⟨"96kbps", "a"⟩ (by decide)).1

/-! ## C3: the client filters to playable songs -/

/-- C3 (amended).  `search_songs_by_mood` itself filters by stream URL:
every returned song already has a non-empty `stream_url`, so re-filtering
its output by `stream_url` presence is a no-op.  (The original "filters out
no results itself" is refuted by `search_filters_unplayable_cex`.) -/
theorem search_songs_by_mood_filter_noop (w : World) (q : String) (limit : Nat) :
    (search_songs_by_mood w q limit).filter (fun s => s.stream_url != "")
      = search_songs_by_mood w q limit := by
  apply List.filter_eq_self.mpr
  intro s hs
  exact bne_iff_ne.mpr (mem_search_songs_by_mood hs).1

/-- C3 (counterexample).  The provider yields one raw result (which
formats to one song) with no stream URL and no id, and the client drops it:
it does not return everything the provider yields. -/
theorem search_filters_unplayable_cex :
    search_songs_by_mood unplayableWorld "x" 5 = [] ∧
    unplayableWorld.searchApi "x" (5 * 2) = some [rawUnplayable] ∧
    format_songs [rawUnplayable] ≠ [] :=
  ⟨by decide, by decide, by decide⟩

/-! ## C4: number of search requests per call -/

theorem searchLoopR_reqs {w : World} {limit : Nat} :
    ∀ {qs : List String} {acc : List Song},
      (searchLoopR w limit qs acc).2.length ≤ qs.length ∧
      ∀ r ∈ (searchLoopR w limit qs acc).2, r ∈ qs := by
  intro qs
  induction qs with
  | nil => intro acc; exact ⟨Nat.le_refl 0, fun r h => absurd h (List.not_mem_nil r)⟩
  | cons q rest ih =>
    intro acc
    simp only [searchLoopR]
    split
    · exact ⟨Nat.zero_le _, fun r h => absurd h (List.not_mem_nil r)⟩
    · split
      · refine ⟨Nat.succ_le_succ (@ih acc).1, fun r h => ?_⟩
        rcases List.mem_cons.mp h with rfl | h'
        · exact List.mem_cons_self _ _
        · exact List.mem_cons_of_mem _ ((@ih acc).2 r h')
      · rename_i raw heq
        refine ⟨Nat.succ_le_succ ih.1, fun r h => ?_⟩
        rcases List.mem_cons.mp h with rfl | h'
        · exact List.mem_cons_self _ _
        · exact List.mem_cons_of_mem _ (ih.2 r h')

theorem moodQueriesService_length {q : String} {l : List String}
    (h : moodQueriesService q = some l) : l.length = 3 := by
  unfold moodQueriesService at h
  repeat' split at h
  all_goals first
    | (injection h with h'; subst h'; rfl)
    | exact Option.noConfusion h

theorem allQueries_length_le (q : String) : (allQueries q).length ≤ 3 := by
  unfold allQueries
  split
  · rename_i l h
    have h3 := moodQueriesService_length h
    split
    · simp [h3]
    · simp
  · simp

theorem searchRequests_eq (w : World) (q : String) (limit : Nat) :
    searchRequests w q limit = (searchLoopR w limit (allQueries q) []).2 ∨
    searchRequests w q limit
      = (searchLoopR w limit (allQueries q) []).2 ++ ["popular bollywood songs"] := by
  simp only [searchRequests, search_songs_by_moodR]
  split
  · split
    · exact Or.inr rfl
    · exact Or.inr rfl
  · exact Or.inl rfl

/-- C4 (amended).  One call to `search_songs_by_mood` issues up to four
search requests, not exactly one: each request's query is either one of the
(at most three) queries in the call's mood-expansion cascade or the generic
fallback query `"popular bollywood songs"`; the Catalog Client performs
this fallback across queries itself.  (The original single-request claim is
refuted by `searchRequests_two_requests_cex`.) -/
theorem searchRequests_bounded (w : World) (q : String) (limit : Nat) :
    (searchRequests w q limit).length ≤ 4 ∧
    (∀ r ∈ searchRequests w q limit,
       r ∈ allQueries q ∨ r = "popular bollywood songs") ∧
    (allQueries q).length ≤ 3 := by
  have hlen : (searchLoopR w limit (allQueries q) []).2.length ≤ 3 :=
    Nat.le_trans searchLoopR_reqs.1 (allQueries_length_le q)
  refine ⟨?_, ?_, allQueries_length_le q⟩
  · rcases searchRequests_eq w q limit with h | h <;> rw [h]
    · omega
    · rw [List.length_append]
      simp only [List.length_cons, List.length_nil]
      omega
  · intro r hr
    rcases searchRequests_eq w q limit with h | h <;> rw [h] at hr
    · exact Or.inl (searchLoopR_reqs.2 r hr)
    · rcases List.mem_append.mp hr with h' | h'
      · exact Or.inl (searchLoopR_reqs.2 r h')
      · exact Or.inr (List.mem_singleton.mp h')

/-- C4 (counterexample).  A provider that answers every search with zero
results: a single call for the (non-mood) query `"xyz"` with limit 1 issues
two search requests — the query itself and the client's own generic
fallback query. -/
theorem searchRequests_two_requests_cex :
    searchRequests emptyWorld "xyz" 1 = ["xyz", "popular bollywood songs"] ∧
    (searchRequests emptyWorld "xyz" 1).length ≠ 1 :=
  ⟨by decide, by decide⟩

/-- Witness for `searchRequests_bounded` at a concrete provider. -/
theorem searchRequests_bounded_witness :
    (searchRequests emptyWorld "xyz" 1).length ≤ 4 ∧
    ((searchRequests emptyWorld "xyz" 1).headD "" ∈ allQueries "xyz" ∨
      (searchRequests emptyWorld "xyz" 1).headD "" = "popular bollywood songs") :=
  ⟨(searchRequests_bounded emptyWorld "xyz" 1).1,
   (searchRequests_bounded emptyWorld "xyz" 1).2.1 _ (by decide)⟩

/-! ## C5: failure behaviour of the AI Candidate Generator -/

/-- C5 (amended).  When the oracle call raises or its payload fails JSON
decoding, the generation operation never raises — but it does **not**
return the empty list: it falls back to `_get_direct_playable_songs`, whose
(possibly non-empty) results it returns, so it is empty only when that
direct search also finds nothing.  The fallback output is itself capped at
`limit` and playable.  (The original "returns an empty list" is refuted by
`generate_badJson_nonempty_cex`.) -/
theorem generate_with_gemini_failure_fallback (w : World) (mood : String)
    (limit : Nat) :
    generate_with_gemini w .err mood limit = get_direct_playable_songs w mood limit ∧
    generate_with_gemini w .badJson mood limit
      = get_direct_playable_songs w mood limit ∧
    (get_direct_playable_songs w mood limit).length ≤ limit ∧
    ∀ s ∈ get_direct_playable_songs w mood limit, s.stream_url ≠ "" :=
  ⟨rfl, rfl, length_get_direct_playable_songs w mood limit,
    fun _ hs => mem_get_direct_playable_songs hs⟩

/-- C5 (counterexample).  With a malformed oracle payload and a provider
offering a playable song, the generation operation returns a non-empty
list, not the empty list. -/
theorem generate_badJson_nonempty_cex :
    generate_with_gemini richWorld .badJson "Happy" 1 ≠ [] := by decide

/-- Witness for `generate_with_gemini_failure_fallback` at a concrete
provider. -/
theorem generate_with_gemini_failure_fallback_witness :
    generate_with_gemini richWorld .err "Happy" 1
      = get_direct_playable_songs richWorld "Happy" 1 ∧
    ((get_direct_playable_songs richWorld "Happy" 1).headD dummySong).stream_url ≠ "" :=
  ⟨(generate_with_gemini_failure_fallback richWorld "Happy" 1).1,
   (generate_with_gemini_failure_fallback richWorld "Happy" 1).2.2.2 _ (by decide)⟩

/-! ## C6: mood analysis -/

/-- C6 (confirmed).  `analyze_mood` returns the oracle's stripped text
verbatim — for *every* text, with no validation against the six `MoodLabel`
values — and returns the fixed default `"Neutral"` whenever the client is
unconfigured or the oracle call raises. -/
theorem analyze_mood_spec (c : Bool) (r : Except Unit String) :
    (∀ t, c = true → r = Except.ok t → analyze_mood c r = pyStrip t) ∧
    (c = false → analyze_mood c r = "Neutral") ∧
    (∀ e : Unit, r = Except.error e → analyze_mood c r = "Neutral") := by
  refine ⟨?_, ?_, ?_⟩
  · intro t hc hr
    subst hc
    subst hr
    rfl
  · intro hc
    subst hc
    rfl
  · intro e hr
    subst hr
    cases c <;> rfl

/-- Witness for `analyze_mood_spec`: a text outside the six labels is passed
through (stripped) verbatim; an unconfigured client and a raising oracle
both yield `"Neutral"`. -/
theorem analyze_mood_spec_witness :
    analyze_mood true (Except.ok "  Confused  ") = "Confused" ∧
    "Confused" ∉ moodLabels ∧
    analyze_mood false (Except.ok "Happy") = "Neutral" ∧
    analyze_mood true (Except.error ()) = "Neutral" := by
  refine ⟨?_, by decide, ?_, ?_⟩
  · have h := (analyze_mood_spec true (Except.ok "  Confused  ")).1 "  Confused  " rfl rfl
    rw [h]
    decide
  · exact (analyze_mood_spec false (Except.ok "Happy")).2.1 rfl
  · exact (analyze_mood_spec true (Except.error ())).2.2 () rfl

/-! ## C8: title/artist normalization fallbacks -/

theorem format_songs_eq_map : ∀ rs : List RawSong, format_songs rs = rs.map formatOne := by
  intro rs
  induction rs with
  | nil => rfl
  | cons r rest ih => simp [format_songs, ih]

/-- C8 (amended).  `_format_songs` yields exactly one normalized track
per raw result; the `"Unknown Title"` fallback applies exactly when the
provider *omits* the `name` key — a provider-supplied empty name yields an
empty title (so the title is *not* never-empty) — and the
`"Unknown Artist"` fallback applies exactly when the primary-artist list is
empty, so a primary-artist list containing one empty name yields an empty
artist.  (The never-empty claim is refuted by `formatOne_empty_title_cex`.) -/
theorem formatOne_fallback_spec (rs : List RawSong) (r : RawSong) :
    format_songs rs = rs.map formatOne ∧
    ((formatOne r).title = "" ↔ r.name = some "") ∧
    (r.name = none → (formatOne r).title = "Unknown Title") ∧
    (r.artistsPrimary = [] → (formatOne r).artist = "Unknown Artist") ∧
    (r.artistsPrimary = [""] → (formatOne r).artist = "") := by
  refine ⟨format_songs_eq_map rs, ?_, ?_, ?_, ?_⟩
  · cases hn : r.name with
    | none =>
      simp only [formatOne, hn, Option.getD_none]
      constructor
      · intro h
        exact absurd h (by decide)
      · intro h
        exact Option.noConfusion h
    | some t =>
      simp only [formatOne, hn, Option.getD_some]
      exact ⟨fun h => by rw [h], fun h => by injection h with h'⟩
  · intro hn
    simp [formatOne, hn]
  · intro ha
    simp [formatOne, ha]
  · intro ha
    simp only [formatOne, ha]
    rfl

/-- C8 (counterexample).  A raw result with a present-but-empty `name`
and a single empty primary-artist name normalizes to a track with empty
title and empty artist. -/
theorem formatOne_empty_title_cex :
    (format_songs [rawEmptyNames]).map (fun s => (s.title, s.artist)) = [("", "")] ∧
    format_songs [rawEmptyNames] ≠ [] :=
  ⟨by decide, by decide⟩

/-- Witness for `formatOne_fallback_spec` at concrete raw results. -/
theorem formatOne_fallback_spec_witness :
    (formatOne { rawEmptyNames with name := none, artistsPrimary := [] }).title
        = "Unknown Title" ∧
    (formatOne { rawEmptyNames with name := none, artistsPrimary := [] }).artist
        = "Unknown Artist" ∧
    (formatOne rawEmptyNames).title = "" :=
  ⟨(formatOne_fallback_spec [] _).2.2.1 rfl,
   (formatOne_fallback_spec [] _).2.2.2.1 rfl,
   (formatOne_fallback_spec [] rawEmptyNames).2.1.mpr rfl⟩

/-! ## C9: user history -/

theorem mem_insertDesc {x z : RecRecord} :
    ∀ {l : List RecRecord}, z ∈ insertDesc x l → z = x ∨ z ∈ l := by
  intro l
  induction l with
  | nil =>
    intro h
    exact Or.inl (List.mem_singleton.mp h)
  | cons y ys ih =>
    intro h
    simp only [insertDesc] at h
    split at h
    · rcases List.mem_cons.mp h with rfl | h'
      · exact Or.inr (List.mem_cons_self _ _)
      · rcases ih h' with h'' | h''
        · exact Or.inl h''
        · exact Or.inr (List.mem_cons_of_mem _ h'')
    · rcases List.mem_cons.mp h with rfl | h'
      · exact Or.inl rfl
      · exact Or.inr h'

theorem sorted_insertDesc {x : RecRecord} :
    ∀ {l : List RecRecord},
      List.Pairwise (fun a b => b.timestamp ≤ a.timestamp) l →
      List.Pairwise (fun a b => b.timestamp ≤ a.timestamp) (insertDesc x l) := by
  intro l
  induction l with
  | nil =>
    intro _
    exact List.pairwise_singleton _ _
  | cons y ys ih =>
    intro hp
    rcases List.pairwise_cons.mp hp with ⟨hy, hys⟩
    simp only [insertDesc]
    split
    · rename_i hle
      apply List.pairwise_cons.mpr
      refine ⟨?_, ih hys⟩
      intro z hz
      rcases mem_insertDesc hz with rfl | hz'
      · exact hle
      · exact hy z hz'
    · rename_i hgt
      apply List.pairwise_cons.mpr
      refine ⟨?_, hp⟩
      intro z hz
      rcases List.mem_cons.mp hz with rfl | hz'
      · exact le_of_not_le hgt
      · exact le_trans (hy z hz') (le_of_not_le hgt)

theorem sorted_sortDesc_aux :
    ∀ (l acc : List RecRecord),
      List.Pairwise (fun a b => b.timestamp ≤ a.timestamp) acc →
      List.Pairwise (fun a b => b.timestamp ≤ a.timestamp)
        (l.foldl (fun acc x => insertDesc x acc) acc) := by
  intro l
  induction l with
  | nil => intro acc h; exact h
  | cons x xs ih => intro acc h; exact ih _ (sorted_insertDesc h)

theorem mem_sortDesc_aux {z : RecRecord} :
    ∀ {l acc : List RecRecord},
      z ∈ l.foldl (fun acc x => insertDesc x acc) acc → z ∈ acc ∨ z ∈ l := by
  intro l
  induction l with
  | nil => intro acc h; exact Or.inl h
  | cons x xs ih =>
    intro acc h
    rcases ih h with h' | h'
    · rcases mem_insertDesc h' with rfl | h''
      · exact Or.inr (List.mem_cons_self _ _)
      · exact Or.inl h''
    · exact Or.inr (List.mem_cons_of_mem _ h')

/-- C9 (confirmed).  `get_user_history` returns at most `limit` records,
every returned record belongs to the requested user, the records are
ordered newest-first by timestamp, and any read/parse error of the store
yields the empty list. -/
theorem get_user_history_spec (store : Except Unit (List RecRecord)) (uid : String)
    (limit : Nat) :
    (get_user_history store uid limit).length ≤ limit ∧
    (∀ r ∈ get_user_history store uid limit, r.user_id = uid) ∧
    List.Pairwise (fun a b => b.timestamp ≤ a.timestamp)
      (get_user_history store uid limit) ∧
    (∀ e : Unit, store = Except.error e → get_user_history store uid limit = []) := by
  refine ⟨?_, ?_, ?_, ?_⟩
  · cases store with
    | error e => exact Nat.zero_le limit
    | ok recs => exact List.length_take_le _ _
  · intro r hr
    cases store with
    | error e => cases hr
    | ok recs =>
      simp only [get_user_history, sortDesc] at hr
      have h1 := List.mem_of_mem_take hr
      rcases mem_sortDesc_aux h1 with h | h
      · cases h
      · have h2 := (List.mem_filter.mp h).2
        exact beq_iff_eq.mp h2
  · cases store with
    | error e => exact List.Pairwise.nil
    | ok recs =>
      simp only [get_user_history, sortDesc]
      exact List.Pairwise.sublist (List.take_sublist _ _)
        (sorted_sortDesc_aux _ [] List.Pairwise.nil)
  · intro e he
    subst he
    rfl

/-- Witness for `get_user_history_spec`: the error store yields `[]`, and at
a concrete store the head of the result belongs to the requested user. -/
theorem get_user_history_spec_witness :
    get_user_history (Except.error ()) "u" 3 = [] ∧
    ((get_user_history (Except.ok sampleStore) "v" 2).headD dummyRec).user_id = "v" :=
  ⟨(get_user_history_spec (Except.error ()) "u" 3).2.2.2 () rfl,
   (get_user_history_spec (Except.ok sampleStore) "v" 2).2.1 _ (by decide)⟩

/-! ## C10: implicit guarantees of the Catalog Client -/

/-- C10 (confirmed).  For every provider, query and limit,
`search_songs_by_mood` returns at most `limit` songs, and every returned
song has a non-empty `stream_url` and non-empty `youtube_search` and
`saavn_search` fallback links. -/
theorem search_songs_by_mood_spec (w : World) (q : String) (limit : Nat) :
    (search_songs_by_mood w q limit).length ≤ limit ∧
    ∀ s ∈ search_songs_by_mood w q limit,
      s.stream_url ≠ "" ∧ s.youtube_search ≠ "" ∧ s.saavn_search ≠ "" :=
  ⟨length_search_songs_by_mood w q limit, fun _ hs => mem_search_songs_by_mood hs⟩

/-- Witness for `search_songs_by_mood_spec` at a concrete provider. -/
theorem search_songs_by_mood_spec_witness :
    (search_songs_by_mood richWorld "q" 2).length ≤ 2 ∧
    (((search_songs_by_mood richWorld "q" 2).headD dummySong).stream_url ≠ "" ∧
      ((search_songs_by_mood richWorld "q" 2).headD dummySong).youtube_search ≠ "" ∧
      ((search_songs_by_mood richWorld "q" 2).headD dummySong).saavn_search ≠ "") :=
  ⟨(search_songs_by_mood_spec richWorld "q" 2).1,
   (search_songs_by_mood_spec richWorld "q" 2).2 _ (by decide)⟩
